import Mathlib

/-!
# Verification of the spyce orbital-mechanics kernel

A shallow embedding, over the real numbers, of the anomaly conversions of
`spyce/orbit_angles.py` and the celestial-body queries of `spyce/body.py`,
followed by theorems checking the specification's claims about them.

Python `float` arithmetic is modelled by exact real arithmetic; `math.inf`
results are modelled in `EReal`; functions that can raise a Python exception
return an `Except`-style result with an explicit error constructor.
-/

noncomputable section

namespace Spyce

open Real

/-- Python's `math.atan2 y x`: the angle of the point `(x, y)` in `(-π, π]`. -/
def atan2 (y x : ℝ) : ℝ :=
  if 0 < x then arctan (y / x)
  else if x < 0 then
    if 0 ≤ y then arctan (y / x) + π else arctan (y / x) - π
  else
    if 0 < y then π / 2
    else if y < 0 then -(π / 2)
    else 0

/-- One Newton step `x - f x / f' x`, iterated a fixed number of times. -/
def newtonIter (f fp : ℝ → ℝ) : ℕ → ℝ → ℝ
  | 0, x => x
  | n + 1, x => newtonIter f fp n (x - f x / fp x)

/-- Modelled from the spec: the root finder `spyce.analysis.newton_raphson` is
not among the sources under verification; §4.1 describes it as iterating
`x_{n+1} = x_n - f x_n / f' x_n` from the initial guess `x_0`, with a
recommended iteration cap of 50 (its exact tolerance and cap are left open).
No claim verified in this file depends on the value it returns. -/
def newton_raphson (x0 : ℝ) (f fp : ℝ → ℝ) : ℝ :=
  newtonIter f fp 50 x0

/-- `OrbitGeometry(eccentricity)` from `spyce/orbit_angles.py`. -/
structure OrbitGeometry where
  eccentricity : ℝ

/-- `OrbitGeometry.ejection_angle`: `math.inf` for a closed orbit
(`eccentricity < 1`), else `acos (-1 / eccentricity)`. -/
def OrbitGeometry.ejection_angle (g : OrbitGeometry) : EReal :=
  if g.eccentricity < 1 then ⊤
  else ((arccos (-1 / g.eccentricity) : ℝ) : EReal)

/-- `OrbitGeometry.mean_anomaly_at_eccentric_anomaly`. -/
def OrbitGeometry.mean_anomaly_at_eccentric_anomaly
    (g : OrbitGeometry) (eccentric_anomaly : ℝ) : ℝ :=
  let e := g.eccentricity
  let E := eccentric_anomaly
  if e < 1 then E - e * sin E
  else if e = 1 then (E ^ 3 + E * 3) / 2
  else e * sinh E - E

/-- `OrbitGeometry.eccentric_anomaly_at_mean_anomaly`; Python's float `%` on a
positive modulus is `x - m * ⌊x / m⌋`. -/
def OrbitGeometry.eccentric_anomaly_at_mean_anomaly
    (g : OrbitGeometry) (mean_anomaly : ℝ) : ℝ :=
  let M := mean_anomaly
  let e := g.eccentricity
  if e < 1 then
    let M := M - 2 * π * ⌊M / (2 * π)⌋
    if |M| < (2 : ℝ) ^ (-26 : ℤ) then M / (1 - e)
    else newton_raphson π (fun E => E - e * sin E - M) (fun E => 1 - e * cos E)
  else if e = 1 then
    let z := (M + Real.sqrt (M ^ 2 + 1)) ^ ((1 : ℝ) / 3)
    z - 1 / z
  else
    if |M| < (2 : ℝ) ^ (-26 : ℤ) then M / (e - 1)
    else newton_raphson 1 (fun E => e * sinh E - E - M) (fun E => e * cosh E - 1)

/-- Python's `math.atanh`, the inverse hyperbolic tangent:
`atanh x = log ((1 + x) / (1 - x)) / 2` on `(-1, 1)`. -/
def atanh (x : ℝ) : ℝ :=
  Real.log ((1 + x) / (1 - x)) / 2

/-- `OrbitGeometry.eccentric_anomaly_at_true_anomaly`. -/
def OrbitGeometry.eccentric_anomaly_at_true_anomaly
    (g : OrbitGeometry) (true_anomaly : ℝ) : ℝ :=
  let v := true_anomaly
  let e := g.eccentricity
  if e < 1 then
    let x := Real.sqrt (1 + e) * cos (v / 2)
    let y := Real.sqrt (1 - e) * sin (v / 2)
    2 * atan2 y x
  else if e = 1 then tan (v / 2)
  else 2 * atanh (Real.sqrt ((e - 1) / (e + 1)) * tan (v / 2))

/-- `OrbitGeometry.true_anomaly_at_eccentric_anomaly`. -/
def OrbitGeometry.true_anomaly_at_eccentric_anomaly
    (g : OrbitGeometry) (eccentric_anomaly : ℝ) : ℝ :=
  let E := eccentric_anomaly
  let e := g.eccentricity
  if e < 1 then
    let x := Real.sqrt (1 - e) * cos (E / 2)
    let y := Real.sqrt (1 + e) * sin (E / 2)
    2 * atan2 y x
  else if e = 1 then 2 * arctan E
  else
    let x := Real.sqrt (e - 1) * cosh (E / 2)
    let y := Real.sqrt (e + 1) * sinh (E / 2)
    2 * atan2 y x

/-- `OrbitGeometry.mean_anomaly_at_true_anomaly`. -/
def OrbitGeometry.mean_anomaly_at_true_anomaly
    (g : OrbitGeometry) (true_anomaly : ℝ) : ℝ :=
  g.mean_anomaly_at_eccentric_anomaly (g.eccentric_anomaly_at_true_anomaly true_anomaly)

/-- `OrbitGeometry.true_anomaly_at_mean_anomaly`. -/
def OrbitGeometry.true_anomaly_at_mean_anomaly
    (g : OrbitGeometry) (mean_anomaly : ℝ) : ℝ :=
  g.true_anomaly_at_eccentric_anomaly (g.eccentric_anomaly_at_mean_anomaly mean_anomaly)

/-- Result of a Python function that returns a float, may return `math.nan`,
or may raise `ValueError` from an out-of-domain `math` call. -/
inductive PyRealResult where
  | val : ℝ → PyRealResult
  | nan : PyRealResult
  | valueError : PyRealResult
deriving DecidableEq

/-- Python's `math.acos`: raises `ValueError` outside `[-1, 1]`. -/
def acosChecked (x : ℝ) : PyRealResult :=
  if x < -1 ∨ 1 < x then .valueError else .val (arccos x)

/-- The fields of `OrbitAngles` (an `OrbitGeometry` plus the quantities that
the external `Orbit` collaborator supplies) used by the distance query. -/
structure OrbitAngles where
  eccentricity : ℝ
  periapsis : ℝ
  apoapsis : ℝ
  semi_latus_rectum : ℝ

/-- `OrbitAngles.true_anomaly_at_distance`: `math.nan` for a circular orbit or
an unreachable distance, otherwise `acos ((semi_latus_rectum / distance - 1) /
eccentricity)`. -/
def OrbitAngles.true_anomaly_at_distance (o : OrbitAngles) (distance : ℝ) :
    PyRealResult :=
  if o.eccentricity = 0 then .nan
  else if distance < o.periapsis then .nan
  else if 0 < o.apoapsis ∧ o.apoapsis < distance then .nan
  else acosChecked ((o.semi_latus_rectum / distance - 1) / o.eccentricity)

/-- The conic-section relations tying the fields an `Orbit` supplies to
`OrbitAngles` together: `semi_latus_rectum = periapsis * (1 + e)` and, for a
closed orbit, `apoapsis = periapsis * (1 + e) / (1 - e)`. -/
def OrbitAngles.WellFormed (o : OrbitAngles) : Prop :=
  0 ≤ o.eccentricity ∧ 0 < o.periapsis ∧
    o.semi_latus_rectum = o.periapsis * (1 + o.eccentricity) ∧
    (o.eccentricity < 1 →
      o.apoapsis = o.periapsis * (1 + o.eccentricity) / (1 - o.eccentricity))

/-- Python exceptions reachable from the `CelestialBody` operations embedded
here. -/
inductive PyError where
  | attributeError : PyError
  | zeroDivisionError : PyError
deriving DecidableEq

/-- The part of the external `Orbit` collaborator that `CelestialBody`'s
time formatting reads: its `period`. -/
structure Orbit where
  period : ℝ

/-- The fields of `CelestialBody` (from `spyce/body.py`) that its embedded
operations read. -/
structure CelestialBody where
  radius : ℝ
  gravitational_parameter : ℝ
  rotational_period : ℝ
  orbit : Option Orbit

/-- `CelestialBody.gravity`; `distance = none` models calling it with the
argument omitted, which defaults to the body's radius. -/
def CelestialBody.gravity (b : CelestialBody) (distance : Option ℝ) : ℝ :=
  let d := distance.getD b.radius
  if d = 0 then 0
  else if d < b.radius then
    b.gravitational_parameter * (d ^ 3 / b.radius ^ 3) / d ^ 2
  else b.gravitational_parameter / d ^ 2

/-- `CelestialBody.constellation_minimum_size`:
`ceil (π / atan (communication_range / radius / 2))`. -/
def CelestialBody.constellation_minimum_size
    (b : CelestialBody) (communication_range : ℝ) : ℤ :=
  ⌈π / arctan (communication_range / b.radius / 2)⌉

/-- `CelestialBody.constellation_radius`: raises `InvalidConstellation` when
`size < 3`, else the pair (minimum radius, maximum radius). -/
def CelestialBody.constellation_radius
    (b : CelestialBody) (communication_range : ℝ) (size : ℤ) :
    Except String (ℝ × ℝ) :=
  if size < 3 then .error "need at least 3 satellites"
  else .ok
    (b.radius / cos (π / size),
     communication_range / sin (π / size) / 2)

/-- The character for a decimal digit value. -/
def digitChar (d : ℕ) : Char := Char.ofNat (48 + d)

/-- Big-endian decimal digit characters of `n`, with explicit fuel. -/
def natCharsAux : ℕ → ℕ → List Char
  | 0, _ => []
  | fuel + 1, n =>
    if n = 0 then [] else natCharsAux fuel (n / 10) ++ [digitChar (n % 10)]

/-- Decimal rendering of a natural number, as Python's `"%u"` prints it. -/
def natChars (n : ℕ) : List Char :=
  if n = 0 then ['0'] else natCharsAux (n + 1) n

/-- Decimal rendering of an integer, as Python's `"%u"` prints it. -/
def intChars (i : ℤ) : List Char :=
  if i < 0 then '-' :: natChars i.natAbs else natChars i.toNat

/-- Pad a rendered field on the left with `c` up to width `w`, as a printf
minimum field width does. -/
def padLeft (c : Char) (w : ℕ) (l : List Char) : List Char :=
  List.replicate (w - l.length) c ++ l

/-- Drop trailing `'0'` characters (the `%g` trailing-zero strip). -/
def dropTrailingZeros (l : List Char) : List Char :=
  (l.reverse.dropWhile (fun c => c = '0')).reverse

/-- Python's `"%.5g"` rendering of a whole number at least `10^5`: round to
five significant digits (ties to even), strip trailing zeros, and write
scientific notation `d[.dddd]e+NN`. -/
def sci5 (n : ℕ) : List Char :=
  let k := (natChars n).length - 1
  let scale := 10 ^ (k - 4)
  let q := n / scale
  let r := n % scale
  let m0 :=
    if 2 * r < scale then q
    else if scale < 2 * r then q + 1
    else if q % 2 = 0 then q else q + 1
  let mk : ℕ × ℕ := if m0 = 100000 then (10000, k + 1) else (m0, k)
  match natChars mk.1 with
  | [] => []
  | c :: rest =>
    let frac := dropTrailingZeros rest
    c :: ((if frac.isEmpty then [] else '.' :: frac) ++
      ('e' :: '+' :: padLeft '0' 2 (natChars mk.2)))

/-- Python's `"%.5g"` rendering of a whole non-negative number: plain decimal
digits below `10^5`, scientific notation from `10^5` on. -/
def fmt5g (n : ℕ) : List Char :=
  if n < 100000 then natChars n else sci5 n

/-- Python's `"%.5g"` rendering of a whole number of either sign. -/
def fmt5gZ (i : ℤ) : List Char :=
  if i < 0 then '-' :: fmt5g i.natAbs else fmt5g i.toNat

/-- Round to the nearest integer, ties to even — the rounding Python applies
when formatting a float with a fixed number of decimals. -/
def roundTiesEven (x : ℝ) : ℤ :=
  if x - ⌊x⌋ < 1 / 2 then ⌊x⌋
  else if 1 / 2 < x - ⌊x⌋ then ⌊x⌋ + 1
  else if Even ⌊x⌋ then ⌊x⌋ else ⌊x⌋ + 1

/-- The digits of a seconds value already scaled to tenths: integer part,
a dot, and one fractional digit. -/
def secondsCore (n : ℕ) : List Char :=
  natChars (n / 10) ++ '.' :: [digitChar (n % 10)]

/-- Python's `"%04.1f"` rendering of a seconds value: one rounded decimal,
zero-padded to overall width 4 (the sign, when present, counts in the
width and precedes the padding). -/
def fmtSecondsReal (x : ℝ) : List Char :=
  let st := roundTiesEven (10 * x)
  if st < 0 then '-' :: padLeft '0' 3 (secondsCore st.natAbs)
  else padLeft '0' 4 (secondsCore st.toNat)

/-- `CelestialBody.time2str`: sign, then
`"%.5gy,%4ud,%3u:%02u:%04.1f"` of the successive `divmod` results by the
orbital period, the rotational period, 3600 and 60. Reading `self.orbit.period`
with no orbit raises `AttributeError`; a zero period makes `divmod` raise
`ZeroDivisionError`. Python's float `divmod(x, p)` is `(⌊x / p⌋, x - ⌊x / p⌋ * p)`. -/
def CelestialBody.time2str (b : CelestialBody) (seconds : ℝ) :
    Except PyError String :=
  match b.orbit with
  | none => .error .attributeError
  | some o =>
    if o.period = 0 then .error .zeroDivisionError
    else if b.rotational_period = 0 then .error .zeroDivisionError
    else
      let sgn : Char := if seconds < 0 then '-' else '+'
      let t := |seconds|
      let y : ℤ := ⌊t / o.period⌋
      let r1 : ℝ := t - y * o.period
      let d : ℤ := ⌊r1 / b.rotational_period⌋
      let r2 : ℝ := r1 - d * b.rotational_period
      let h : ℤ := ⌊r2 / 3600⌋
      let r3 : ℝ := r2 - h * 3600
      let m : ℤ := ⌊r3 / 60⌋
      let r4 : ℝ := r3 - m * 60
      .ok (String.mk
        (sgn :: fmt5gZ y ++ 'y' :: ',' :: padLeft ' ' 4 (intChars d) ++
          'd' :: ',' :: padLeft ' ' 3 (intChars h) ++
          ':' :: padLeft '0' 2 (intChars m) ++ ':' :: fmtSecondsReal r4))

/-- Greedily consume decimal digits (`\d+`), folding them onto `acc`. -/
def takeDigits : List Char → ℕ → ℕ × List Char
  | [], acc => (acc, [])
  | c :: cs, acc =>
    if c.isDigit then takeDigits cs (10 * acc + (c.toNat - 48)) else (acc, c :: cs)

/-- Match `\d+`: at least one digit, greedily. -/
def parseNatPart : List Char → Option (ℕ × List Char)
  | [] => none
  | c :: cs => if c.isDigit then some (takeDigits (c :: cs) 0) else none

/-- Greedily consume decimal digits, also counting how many were consumed. -/
def takeDigitsCnt : List Char → ℕ → ℕ → (ℕ × ℕ) × List Char
  | [], acc, cnt => ((acc, cnt), [])
  | c :: cs, acc, cnt =>
    if c.isDigit then takeDigitsCnt cs (10 * acc + (c.toNat - 48)) (cnt + 1)
    else ((acc, cnt), c :: cs)

/-- Match `\d+` keeping the digit count (for a fractional part's value). -/
def parseFracPart : List Char → Option ((ℕ × ℕ) × List Char)
  | [] => none
  | c :: cs => if c.isDigit then some (takeDigitsCnt (c :: cs) 0 0) else none

/-- Consume `[\s,]*`. -/
def skipSep : List Char → List Char
  | [] => []
  | c :: cs => if c = ',' ∨ c.isWhitespace then skipSep cs else c :: cs

/-- Match `([-+]?)`. -/
def matchSign : List Char → Option Char × List Char
  | [] => (none, [])
  | c :: cs => if c = '+' ∨ c = '-' then (some c, cs) else (none, c :: cs)

/-- Match `(?:(\d+)t[\s,]*)?` for a tag character `t` (`'y'` or `'d'`): digits
immediately followed by the tag, then separators; on failure the position is
left unchanged.  Backtracking inside `\d+` cannot help the tag match because a
shorter digit run ends right before a digit, and the tag is not a digit. -/
def matchTagged (tag : Char) (l : List Char) : Option ℕ × List Char :=
  match parseNatPart l with
  | none => (none, l)
  | some (n, rest) =>
    match rest with
    | [] => (none, l)
    | c :: cs => if c = tag then (some n, skipSep cs) else (none, l)

/-- The seconds group of the time regex: integer digits, an optional dot
followed by fractional digits. -/
structure SecondsGroup where
  intPart : ℕ
  fracNum : ℕ
  fracLen : ℕ

/-- Match `(?::(\d+(?:\.\d+)?))?`: a colon and a seconds value; a dot not
followed by a digit is left unconsumed, as the optional fraction group then
fails and is skipped. -/
def matchSeconds (l : List Char) : Option SecondsGroup × List Char :=
  match l with
  | [] => (none, l)
  | c :: r1 =>
    if c = ':' then
      match parseNatPart r1 with
      | none => (none, l)
      | some (si, r2) =>
        match r2 with
        | [] => (some ⟨si, 0, 0⟩, r2)
        | c2 :: r3 =>
          if c2 = '.' then
            match parseFracPart r3 with
            | none => (some ⟨si, 0, 0⟩, r2)
            | some (fnl, r4) => (some ⟨si, fnl.1, fnl.2⟩, r4)
          else (some ⟨si, 0, 0⟩, r2)
    else (none, l)

/-- Match `(?:(\d+):(\d+)(?::(\d+(?:\.\d+)?))?)?`: hours and minutes, with
optional seconds; on failure the position is left unchanged. -/
def matchHMS (l : List Char) :
    Option (ℕ × ℕ × Option SecondsGroup) × List Char :=
  match parseNatPart l with
  | none => (none, l)
  | some (hh, r1) =>
    match r1 with
    | [] => (none, l)
    | c :: r2 =>
      if c = ':' then
        match parseNatPart r2 with
        | none => (none, l)
        | some (mm, r3) =>
          let s4 := matchSeconds r3
          (some (hh, mm, s4.1), s4.2)
      else (none, l)

/-- The groups of `str2time`'s regex; `none` models an unmatched group. -/
structure TimeGroups where
  sign : Option Char
  years : Option ℕ
  days : Option ℕ
  hms : Option (ℕ × ℕ × Option SecondsGroup)

/-- `re.match` of `str2time`'s regex, which always succeeds because every
group is optional: an anchored prefix match collecting the groups. -/
def matchTime (l : List Char) : TimeGroups :=
  let s1 := matchSign l
  let s2 := matchTagged 'y' s1.2
  let s3 := matchTagged 'd' s2.2
  let s4 := matchHMS s3.2
  ⟨s1.1, s2.1, s3.1, s4.1⟩

/-- `CelestialBody.str2time`: match the regex, convert each group with
`float(group) if group else 0`, and combine with the body's orbital period,
rotational period, 3600 and 60; reading `self.orbit.period` with no orbit
raises `AttributeError`. -/
def CelestialBody.str2time (b : CelestialBody) (formatted_time : String) :
    Except PyError ℝ :=
  let g := matchTime formatted_time.data
  let y : ℝ := (g.years.getD 0 : ℕ)
  let d : ℝ := (g.days.getD 0 : ℕ)
  let h : ℝ := match g.hms with | some (hh, _, _) => (hh : ℝ) | none => 0
  let m : ℝ := match g.hms with | some (_, mm, _) => (mm : ℝ) | none => 0
  let sec : ℝ := match g.hms with
    | some (_, _, some sg) => (sg.intPart : ℝ) + (sg.fracNum : ℝ) / 10 ^ sg.fracLen
    | _ => 0
  match b.orbit with
  | none => .error .attributeError
  | some o =>
    .ok (if g.sign = some '-'
      then -(sec + y * o.period + d * b.rotational_period + h * 3600 + m * 60)
      else sec + y * o.period + d * b.rotational_period + h * 3600 + m * 60)

/-- Whether an `Except` result is a success. -/
def exceptIsOk {ε α : Type} : Except ε α → Bool
  | .ok _ => true
  | .error _ => false

/-- The value of a successful `Except` result, with a default for errors. -/
def exceptValD (d : ℝ) : Except PyError ℝ → ℝ
  | .ok r => r
  | .error _ => d

/-- The head of the character list, if any, is not a decimal digit — the
condition under which a greedy `\d+` stops. -/
def noDigitHead (l : List Char) : Prop :=
  ∀ x, l.head? = some x → x.isDigit = false

/-! ## Theorems -/

/-- Helper: compute a concrete integer floor from its two bounds. -/
theorem floorEq {z : ℤ} {x : ℝ} (h1 : (z : ℝ) ≤ x) (h2 : x < z + 1) : ⌊x⌋ = z :=
  Int.floor_eq_iff.mpr ⟨h1, h2⟩

/-- Helper: `arccos (-(1 / 2)) = 2 * π / 3`. -/
theorem arccos_neg_half : arccos (-(1 / 2) : ℝ) = 2 * π / 3 := by
  have hc : Real.cos (2 * π / 3) = -(1 / 2) := by
    have h : (2 * π / 3 : ℝ) = π - π / 3 := by ring
    rw [h, Real.cos_pi_sub, Real.cos_pi_div_three]
  rw [← hc, Real.arccos_cos (by positivity) (by nlinarith [Real.pi_pos])]

/-- C6: `ejection_angle()` returns `+∞` for every eccentricity below 1 (in
particular 0.5) and `acos (-1 / eccentricity)` for every eccentricity at
least 1 — in particular `2π/3 ≈ 2.0944` for eccentricity 2 and `π` for
eccentricity exactly 1. -/
theorem ejection_angle_spec (e : ℝ) :
    (e < 1 → OrbitGeometry.ejection_angle ⟨e⟩ = ⊤) ∧
    (1 ≤ e → OrbitGeometry.ejection_angle ⟨e⟩ = ((arccos (-1 / e) : ℝ) : EReal)) ∧
    OrbitGeometry.ejection_angle ⟨1 / 2⟩ = ⊤ ∧
    OrbitGeometry.ejection_angle ⟨2⟩ = ((2 * π / 3 : ℝ) : EReal) ∧
    |2 * π / 3 - 2.0944| < 1 / 10 ^ 4 ∧
    OrbitGeometry.ejection_angle ⟨1⟩ = ((π : ℝ) : EReal) := by
  refine ⟨fun h => ?_, fun h => ?_, ?_, ?_, ?_, ?_⟩
  · simp [OrbitGeometry.ejection_angle, h]
  · simp [OrbitGeometry.ejection_angle, not_lt.mpr h]
  · simp [OrbitGeometry.ejection_angle]; norm_num
  · have h2 : ¬ ((2 : ℝ) < 1) := by norm_num
    have harg : (-1 / 2 : ℝ) = -(1 / 2) := by norm_num
    simp only [OrbitGeometry.ejection_angle, h2, if_false]
    rw [harg, arccos_neg_half]
  · rw [abs_lt]
    constructor <;> nlinarith [Real.pi_gt_d6, Real.pi_lt_d6]
  · have h1 : ¬ ((1 : ℝ) < 1) := by norm_num
    have harg : (-1 / 1 : ℝ) = -1 := by norm_num
    simp only [OrbitGeometry.ejection_angle, h1, if_false]
    rw [harg, Real.arccos_neg_one]

/-- C6 witness: the two concrete eccentricities named by the claim. -/
theorem ejection_angle_spec_witness :
    OrbitGeometry.ejection_angle ⟨1 / 2⟩ = ⊤ ∧
    OrbitGeometry.ejection_angle ⟨2⟩ = ((2 * π / 3 : ℝ) : EReal) :=
  ⟨(ejection_angle_spec (1 / 2)).1 (by norm_num),
   (ejection_angle_spec 2).2.2.2.1⟩

/-- C4: `gravity` is 0 at distance 0, follows the shell theorem
`μ * (d / r) ^ 3 / d ^ 2` strictly inside the body, is the inverse square
`μ / d ^ 2` from the surface outwards; hence surface gravity is `μ / r ^ 2`,
gravity at half the radius is half the surface gravity, and the no-argument
call uses the radius. -/
theorem gravity_spec (b : CelestialBody) (d : ℝ) (hr : 0 < b.radius) :
    b.gravity (some 0) = 0 ∧
    (0 < d → d < b.radius →
      b.gravity (some d) = b.gravitational_parameter * (d / b.radius) ^ 3 / d ^ 2) ∧
    (b.radius ≤ d → b.gravity (some d) = b.gravitational_parameter / d ^ 2) ∧
    b.gravity (some b.radius) = b.gravitational_parameter / b.radius ^ 2 ∧
    b.gravity (some (b.radius / 2)) = 1 / 2 * b.gravity (some b.radius) ∧
    b.gravity none = b.gravity (some b.radius) := by
  refine ⟨?_, fun hd0 hdr => ?_, fun hrd => ?_, ?_, ?_, rfl⟩
  · simp [CelestialBody.gravity]
  · simp only [CelestialBody.gravity, Option.getD_some, if_neg hd0.ne', if_pos hdr]
    rw [div_pow]
  · have hd0 : d ≠ 0 := (lt_of_lt_of_le hr hrd).ne'
    simp [CelestialBody.gravity, hd0, not_lt.mpr hrd]
  · simp [CelestialBody.gravity, hr.ne', lt_irrefl]
  · have h2 : b.radius / 2 ≠ 0 := by positivity
    have hlt : b.radius / 2 < b.radius := by linarith
    simp only [CelestialBody.gravity, Option.getD_some, if_neg h2, if_pos hlt,
      if_neg hr.ne', if_neg (lt_irrefl b.radius)]
    field_simp
    ring

/-- C4 witness: a body of radius 2 and gravitational parameter 5, probed at
distance 1 (interior), 2 (surface), 0, and with the argument omitted. -/
theorem gravity_spec_witness :
    CelestialBody.gravity ⟨2, 5, 0, none⟩ (some 0) = 0 ∧
    CelestialBody.gravity ⟨2, 5, 0, none⟩ (some 1) = 5 * ((1 : ℝ) / 2) ^ 3 / 1 ^ 2 ∧
    CelestialBody.gravity ⟨2, 5, 0, none⟩ (some 2) = 5 / 2 ^ 2 ∧
    CelestialBody.gravity ⟨2, 5, 0, none⟩ (some (2 / 2)) =
      1 / 2 * CelestialBody.gravity ⟨2, 5, 0, none⟩ (some 2) ∧
    CelestialBody.gravity ⟨2, 5, 0, none⟩ none =
      CelestialBody.gravity ⟨2, 5, 0, none⟩ (some 2) := by
  have h := gravity_spec ⟨2, 5, 0, none⟩ 1 (by norm_num)
  exact ⟨h.1, h.2.1 (by norm_num) (by norm_num), h.2.2.2.1, h.2.2.2.2.1, h.2.2.2.2.2⟩

/-- C5: `constellation_radius` signals `InvalidConstellation` exactly when
`size < 3`, and otherwise returns the pair
`(radius / cos (π / size), range / (2 * sin (π / size)))`. -/
theorem constellation_radius_spec
    (b : CelestialBody) (communication_range : ℝ) (size : ℤ) :
    (b.constellation_radius communication_range size =
        .error "need at least 3 satellites" ↔ size < 3) ∧
    (3 ≤ size → b.constellation_radius communication_range size =
      .ok (b.radius / cos (π / (size : ℝ)),
           communication_range / (2 * sin (π / (size : ℝ))))) := by
  constructor
  · by_cases h : size < 3
    · simp [CelestialBody.constellation_radius, h]
    · simp [CelestialBody.constellation_radius, h]
  · intro h
    rw [CelestialBody.constellation_radius, if_neg (not_lt.mpr h), div_div,
      mul_comm (sin (π / (size : ℝ))) 2]

/-- C5 witness: size 2 is rejected and size 3 returns the claimed pair. -/
theorem constellation_radius_spec_witness :
    CelestialBody.constellation_radius ⟨1, 0, 0, none⟩ 10 2 =
      .error "need at least 3 satellites" ∧
    CelestialBody.constellation_radius ⟨1, 0, 0, none⟩ 10 3 =
      .ok ((1 : ℝ) / cos (π / ((3 : ℤ) : ℝ)), 10 / (2 * sin (π / ((3 : ℤ) : ℝ)))) :=
  ⟨(constellation_radius_spec ⟨1, 0, 0, none⟩ 10 2).1.mpr (by norm_num),
   (constellation_radius_spec ⟨1, 0, 0, none⟩ 10 3).2 (by norm_num)⟩

/-- C8: for positive radius and positive communication range,
`constellation_minimum_size` is at least 3 — `atan` of a positive argument
lies strictly below `π / 2` — so feeding it to `constellation_radius` never
raises `InvalidConstellation`. -/
theorem constellation_minimum_size_spec
    (b : CelestialBody) (communication_range : ℝ)
    (hr : 0 < b.radius) (hc : 0 < communication_range) :
    3 ≤ b.constellation_minimum_size communication_range ∧
    b.constellation_radius communication_range
        (b.constellation_minimum_size communication_range) =
      .ok (b.radius / cos (π / ((b.constellation_minimum_size communication_range : ℤ) : ℝ)),
           communication_range /
             sin (π / ((b.constellation_minimum_size communication_range : ℤ) : ℝ)) / 2) := by
  have harg : 0 < communication_range / b.radius / 2 := by positivity
  have ha0 : 0 < arctan (communication_range / b.radius / 2) := by
    have := Real.arctan_strictMono harg
    rwa [Real.arctan_zero] at this
  have hahalf : arctan (communication_range / b.radius / 2) < π / 2 :=
    Real.arctan_lt_pi_div_two _
  have h2 : (2 : ℝ) < π / arctan (communication_range / b.radius / 2) := by
    rw [lt_div_iff₀ ha0]
    linarith
  have h3 : 3 ≤ b.constellation_minimum_size communication_range := by
    have : (2 : ℤ) < ⌈π / arctan (communication_range / b.radius / 2)⌉ :=
      Int.lt_ceil.mpr (by exact_mod_cast h2)
    have hdef : b.constellation_minimum_size communication_range =
      ⌈π / arctan (communication_range / b.radius / 2)⌉ := rfl
    omega
  refine ⟨h3, ?_⟩
  rw [CelestialBody.constellation_radius, if_neg (not_lt.mpr h3)]

/-- C8 witness: radius 1, communication range 2. -/
theorem constellation_minimum_size_spec_witness :
    3 ≤ CelestialBody.constellation_minimum_size ⟨1, 0, 0, none⟩ 2 ∧
    CelestialBody.constellation_radius ⟨1, 0, 0, none⟩ 2
        (CelestialBody.constellation_minimum_size ⟨1, 0, 0, none⟩ 2) =
      .ok ((1 : ℝ) / cos (π / ((CelestialBody.constellation_minimum_size ⟨1, 0, 0, none⟩ 2 : ℤ) : ℝ)),
           2 / sin (π / ((CelestialBody.constellation_minimum_size ⟨1, 0, 0, none⟩ 2 : ℤ) : ℝ)) / 2) :=
  constellation_minimum_size_spec ⟨1, 0, 0, none⟩ 2 (by norm_num) (by norm_num)

/-- C1: at eccentricity exactly 1, the closed-form depressed-cubic solve of
Barker's equation followed by `mean_anomaly_at_eccentric_anomaly` is the
identity on mean anomalies (hence recovers them within `1e-9`). -/
theorem parabolic_roundtrip (M : ℝ) :
    OrbitGeometry.mean_anomaly_at_eccentric_anomaly ⟨1⟩
      (OrbitGeometry.eccentric_anomaly_at_mean_anomaly ⟨1⟩ M) = M ∧
    |OrbitGeometry.mean_anomaly_at_eccentric_anomaly ⟨1⟩
      (OrbitGeometry.eccentric_anomaly_at_mean_anomaly ⟨1⟩ M) - M| ≤ 1 / 10 ^ 9 := by
  have h11 : ¬ ((1 : ℝ) < 1) := lt_irrefl 1
  have hmean : ∀ E : ℝ,
      OrbitGeometry.mean_anomaly_at_eccentric_anomaly ⟨1⟩ E = (E ^ 3 + E * 3) / 2 := by
    intro E
    simp only [OrbitGeometry.mean_anomaly_at_eccentric_anomaly]
    rw [if_neg h11, if_pos trivial]
  have hecc : OrbitGeometry.eccentric_anomaly_at_mean_anomaly ⟨1⟩ M =
      (M + Real.sqrt (M ^ 2 + 1)) ^ ((1 : ℝ) / 3) -
        1 / (M + Real.sqrt (M ^ 2 + 1)) ^ ((1 : ℝ) / 3) := by
    simp only [OrbitGeometry.eccentric_anomaly_at_mean_anomaly]
    rw [if_neg h11, if_pos trivial]
  set s := Real.sqrt (M ^ 2 + 1) with hs_def
  have hs2 : s ^ 2 = M ^ 2 + 1 := Real.sq_sqrt (by positivity)
  have hsM : |M| < s := by
    rw [hs_def, ← Real.sqrt_sq_eq_abs]
    exact Real.sqrt_lt_sqrt (sq_nonneg M) (by linarith)
  have hMs : 0 < M + s := by
    rcases abs_lt.mp hsM with ⟨h1, _⟩
    linarith
  set z := (M + s) ^ ((1 : ℝ) / 3) with hz_def
  have hz : 0 < z := Real.rpow_pos_of_pos hMs _
  have hz3 : z ^ 3 = M + s := by
    rw [hz_def, ← Real.rpow_natCast ((M + s) ^ ((1 : ℝ) / 3)) 3,
      ← Real.rpow_mul hMs.le]
    norm_num
  have hzinv : (1 / z) ^ 3 = s - M := by
    have hmul : (M + s) * (s - M) = 1 := by nlinarith [hs2]
    rw [div_pow, one_pow, hz3, eq_comm, eq_div_iff hMs.ne']
    linarith [hmul]
  have main : OrbitGeometry.mean_anomaly_at_eccentric_anomaly ⟨1⟩
      (OrbitGeometry.eccentric_anomaly_at_mean_anomaly ⟨1⟩ M) = M := by
    rw [hecc, hmean]
    have key : ((z - 1 / z) ^ 3 + (z - 1 / z) * 3) / 2 =
        (z ^ 3 - (1 / z) ^ 3) / 2 := by
      field_simp
      ring
    rw [key, hz3, hzinv]
    ring
  refine ⟨main, ?_⟩
  rw [main, sub_self, abs_zero]
  norm_num

/-- C2: for every eccentricity above 1 and every eccentric anomaly, the
hyperbolic true anomaly lies strictly between `-ejection_angle()` and
`+ejection_angle()`. -/
theorem hyperbolic_true_anomaly_within_ejection (e : ℝ) (he : 1 < e) (E : ℝ) :
    -(OrbitGeometry.ejection_angle ⟨e⟩) <
      ((OrbitGeometry.true_anomaly_at_eccentric_anomaly ⟨e⟩ E : ℝ) : EReal) ∧
    ((OrbitGeometry.true_anomaly_at_eccentric_anomaly ⟨e⟩ E : ℝ) : EReal) <
      OrbitGeometry.ejection_angle ⟨e⟩ := by
  have he1 : ¬ (e < 1) := not_lt.mpr he.le
  have hee : ¬ (e = 1) := ne_of_gt he
  have hem : 0 < e - 1 := by linarith
  have hep : 0 < e + 1 := by linarith
  have hx : 0 < Real.sqrt (e - 1) * cosh (E / 2) :=
    mul_pos (Real.sqrt_pos.mpr hem) (Real.cosh_pos _)
  set w : ℝ := Real.sqrt (e + 1) * sinh (E / 2) / (Real.sqrt (e - 1) * cosh (E / 2))
    with hw_def
  have hnu : OrbitGeometry.true_anomaly_at_eccentric_anomaly ⟨e⟩ E = 2 * arctan w := by
    simp only [OrbitGeometry.true_anomaly_at_eccentric_anomaly]
    rw [if_neg he1, if_neg hee]
    rw [atan2, if_pos hx]
  set u : ℝ := Real.sqrt (e + 1) / Real.sqrt (e - 1) with hu_def
  have hu0 : 0 < u := div_pos (Real.sqrt_pos.mpr hep) (Real.sqrt_pos.mpr hem)
  have hwu : |w| < u := by
    have hsplit : w = u * (sinh (E / 2) / cosh (E / 2)) := by
      rw [hw_def, hu_def, mul_div_mul_comm]
    have htanh : |sinh (E / 2) / cosh (E / 2)| < 1 := by
      rw [abs_div, abs_of_pos (Real.cosh_pos _), div_lt_one (Real.cosh_pos _),
        Real.abs_sinh, ← Real.cosh_abs]
      exact Real.sinh_lt_cosh _
    calc |w| = u * |sinh (E / 2) / cosh (E / 2)| := by
          rw [hsplit, abs_mul, abs_of_pos hu0]
      _ < u * 1 := by exact mul_lt_mul_of_pos_left htanh hu0
      _ = u := mul_one u
  have hacos : arccos (-1 / e) = 2 * arctan u := by
    have hu2 : u ^ 2 = (e + 1) / (e - 1) := by
      rw [hu_def, div_pow, Real.sq_sqrt hep.le, Real.sq_sqrt hem.le]
    have hcos : Real.cos (2 * arctan u) = -1 / e := by
      rw [Real.cos_two_mul, Real.cos_arctan]
      have hsq : (1 / Real.sqrt (1 + u ^ 2)) ^ 2 = 1 / (1 + u ^ 2) := by
        rw [div_pow, one_pow, Real.sq_sqrt (by positivity)]
      rw [hsq, hu2]
      have he0 : e ≠ 0 := by linarith
      field_simp
      ring
    have h0 : (0 : ℝ) ≤ 2 * arctan u := by
      have := Real.arctan_strictMono hu0
      rw [Real.arctan_zero] at this
      linarith
    have hpi : 2 * arctan u ≤ π := by
      have := Real.arctan_lt_pi_div_two u
      linarith
    rw [← hcos, Real.arccos_cos h0 hpi]
  have hej : OrbitGeometry.ejection_angle ⟨e⟩ = ((arccos (-1 / e) : ℝ) : EReal) := by
    simp only [OrbitGeometry.ejection_angle]
    rw [if_neg he1]
  have hlt : arctan w < arctan u := Real.arctan_strictMono (abs_lt.mp hwu).2
  have hgt : -arctan u < arctan w := by
    have := Real.arctan_strictMono (abs_lt.mp hwu).1
    rwa [Real.arctan_neg] at this
  rw [hej, hnu, hacos, ← EReal.coe_neg]
  exact ⟨EReal.coe_lt_coe_iff.mpr (by linarith), EReal.coe_lt_coe_iff.mpr (by linarith)⟩

/-- C2 witness: eccentricity 2, eccentric anomaly 1. -/
theorem hyperbolic_true_anomaly_within_ejection_witness :
    -(OrbitGeometry.ejection_angle ⟨2⟩) <
      ((OrbitGeometry.true_anomaly_at_eccentric_anomaly ⟨2⟩ 1 : ℝ) : EReal) ∧
    ((OrbitGeometry.true_anomaly_at_eccentric_anomaly ⟨2⟩ 1 : ℝ) : EReal) <
      OrbitGeometry.ejection_angle ⟨2⟩ :=
  hyperbolic_true_anomaly_within_ejection 2 (by norm_num) 1

/-- C3: for a well-formed orbit, `true_anomaly_at_distance` returns the NaN
sentinel exactly when the orbit is circular, the distance is below periapsis,
or a positive apoapsis is below the distance; in every other case it returns
the non-negative angle `acos ((semi_latus_rectum / distance - 1) /
eccentricity)` and never raises. -/
theorem true_anomaly_at_distance_spec (o : OrbitAngles) (distance : ℝ)
    (hwf : o.WellFormed) :
    (o.true_anomaly_at_distance distance = .nan ↔
      (o.eccentricity = 0 ∨ distance < o.periapsis ∨
        (0 < o.apoapsis ∧ o.apoapsis < distance))) ∧
    o.true_anomaly_at_distance distance ≠ .valueError ∧
    (¬ (o.eccentricity = 0 ∨ distance < o.periapsis ∨
        (0 < o.apoapsis ∧ o.apoapsis < distance)) →
      o.true_anomaly_at_distance distance =
        .val (arccos ((o.semi_latus_rectum / distance - 1) / o.eccentricity)) ∧
      0 ≤ arccos ((o.semi_latus_rectum / distance - 1) / o.eccentricity)) := by
  obtain ⟨he0, hp, hslr, hapo⟩ := hwf
  by_cases h1 : o.eccentricity = 0
  · refine ⟨by simp [OrbitAngles.true_anomaly_at_distance, h1], ?_, ?_⟩
    · simp [OrbitAngles.true_anomaly_at_distance, h1]
    · intro h
      exact absurd (Or.inl h1) h
  by_cases h2 : distance < o.periapsis
  · refine ⟨by simp [OrbitAngles.true_anomaly_at_distance, h1, h2], ?_, ?_⟩
    · simp [OrbitAngles.true_anomaly_at_distance, h1, h2]
    · intro h
      exact absurd (Or.inr (Or.inl h2)) h
  by_cases h3 : 0 < o.apoapsis ∧ o.apoapsis < distance
  · refine ⟨by simp [OrbitAngles.true_anomaly_at_distance, h1, h2, h3], ?_, ?_⟩
    · simp [OrbitAngles.true_anomaly_at_distance, h1, h2, h3]
    · intro h
      exact absurd (Or.inr (Or.inr h3)) h
  have he : 0 < o.eccentricity := lt_of_le_of_ne he0 (Ne.symm h1)
  have hdp : o.periapsis ≤ distance := not_lt.mp h2
  have hd : 0 < distance := lt_of_lt_of_le hp hdp
  have hupper : o.semi_latus_rectum / distance ≤ 1 + o.eccentricity := by
    rw [div_le_iff₀ hd, hslr]
    calc o.periapsis * (1 + o.eccentricity)
        ≤ distance * (1 + o.eccentricity) :=
          mul_le_mul_of_nonneg_right hdp (by linarith)
      _ = (1 + o.eccentricity) * distance := mul_comm _ _
  have hlower : 1 - o.eccentricity ≤ o.semi_latus_rectum / distance := by
    rw [le_div_iff₀ hd]
    by_cases he1 : o.eccentricity < 1
    · have happ := hapo he1
      have hap0 : 0 < o.apoapsis := by
        rw [happ]
        have h1e : 0 < 1 - o.eccentricity := by linarith
        positivity
      have hda : distance ≤ o.apoapsis := by
        by_contra hcon
        exact h3 ⟨hap0, not_le.mp hcon⟩
      have h1e : (0 : ℝ) < 1 - o.eccentricity := by linarith
      have hmul : o.apoapsis * (1 - o.eccentricity) = o.semi_latus_rectum := by
        rw [happ, hslr, div_mul_eq_mul_div, mul_div_assoc, div_self h1e.ne',
          mul_one]
      calc (1 - o.eccentricity) * distance
          ≤ (1 - o.eccentricity) * o.apoapsis :=
            mul_le_mul_of_nonneg_left hda (by linarith)
        _ = o.semi_latus_rectum := by rw [mul_comm, hmul]
    · have hnp : (1 - o.eccentricity) * distance ≤ 0 :=
        mul_nonpos_of_nonpos_of_nonneg (by linarith [not_lt.mp he1]) hd.le
      have hpos : 0 < o.semi_latus_rectum := by
        rw [hslr]
        positivity
      linarith
  have harg : ¬ ((o.semi_latus_rectum / distance - 1) / o.eccentricity < -1 ∨
      1 < (o.semi_latus_rectum / distance - 1) / o.eccentricity) := by
    push_neg
    constructor
    · rw [le_div_iff₀ he]
      linarith
    · rw [div_le_one he]
      linarith
  have hres : o.true_anomaly_at_distance distance =
      .val (arccos ((o.semi_latus_rectum / distance - 1) / o.eccentricity)) := by
    rw [OrbitAngles.true_anomaly_at_distance, if_neg h1, if_neg h2, if_neg h3,
      acosChecked, if_neg harg]
  refine ⟨?_, ?_, fun _ => ⟨hres, Real.arccos_nonneg _⟩⟩
  · rw [hres]
    simp [h1, h2, h3]
  · rw [hres]
    simp

/-- C3 witness: eccentricity 1/2, periapsis 2, apoapsis 6, semi-latus rectum
3, queried at the reachable distance 4. -/
theorem true_anomaly_at_distance_spec_witness :
    OrbitAngles.true_anomaly_at_distance ⟨1 / 2, 2, 6, 3⟩ 4 =
      .val (arccos (((3 : ℝ) / 4 - 1) / (1 / 2))) ∧
    0 ≤ arccos (((3 : ℝ) / 4 - 1) / (1 / 2)) :=
  (true_anomaly_at_distance_spec ⟨1 / 2, 2, 6, 3⟩ 4
    ⟨by norm_num, by norm_num, by norm_num, fun _ => by norm_num⟩).2.2
    (by norm_num)

/-- C9: with no orbit, both `time2str` and `str2time` read
`self.orbit.period` unconditionally and fail with `AttributeError` instead of
returning a value. -/
theorem time_formatting_requires_orbit (b : CelestialBody) (t : ℝ) (s : String)
    (h : b.orbit = none) :
    b.time2str t = .error .attributeError ∧
    b.str2time s = .error .attributeError := by
  constructor
  · simp [CelestialBody.time2str, h]
  · simp [CelestialBody.str2time, h]

/-- C9 witness: a concrete orbit-less body. -/
theorem time_formatting_requires_orbit_witness :
    CelestialBody.time2str ⟨0, 0, 0, none⟩ 0 = .error .attributeError ∧
    CelestialBody.str2time ⟨0, 0, 0, none⟩ "" = .error .attributeError :=
  time_formatting_requires_orbit ⟨0, 0, 0, none⟩ 0 "" rfl

/-- C10: for a body with an orbit, `str2time` is total: every group of its
regex is optional, so every string parses without raising, absent fields
default to 0, and a string whose first character can start no group (not a
sign, not a digit) — in particular the empty string — yields `0.0`. -/
theorem str2time_total (b : CelestialBody) (o : Orbit) (s : String)
    (c : Char) (cs : List Char) (h : b.orbit = some o)
    (hc1 : c.isDigit = false) (hc2 : c ≠ '+') (hc3 : c ≠ '-') :
    exceptIsOk (b.str2time s) = true ∧
    b.str2time (String.mk (c :: cs)) = .ok 0 ∧
    b.str2time (String.mk []) = .ok 0 := by
  refine ⟨?_, ?_, ?_⟩
  · simp only [CelestialBody.str2time, h]
    rfl
  · have hmatch : matchTime (c :: cs) =
        ⟨none, none, none, none⟩ := by
      simp [matchTime, matchSign, matchTagged, parseNatPart, matchHMS,
        hc1, hc2, hc3]
    simp [CelestialBody.str2time, h, hmatch]
  · have hmatch : matchTime ([] : List Char) = ⟨none, none, none, none⟩ := by
      simp [matchTime, matchSign, matchTagged, parseNatPart, matchHMS]
    simp [CelestialBody.str2time, h, hmatch]

/-- C10 witness: a parseable string, an unparseable string, and the empty
string against a body with an orbit. -/
theorem str2time_total_witness :
    exceptIsOk (CelestialBody.str2time ⟨0, 0, 1, some ⟨7⟩⟩
      (String.mk ['1', '2', 'y'])) = true ∧
    CelestialBody.str2time ⟨0, 0, 1, some ⟨7⟩⟩ (String.mk ['x', 'y', 'z']) = .ok 0 ∧
    CelestialBody.str2time ⟨0, 0, 1, some ⟨7⟩⟩ (String.mk []) = .ok 0 := by
  have h := str2time_total ⟨0, 0, 1, some ⟨7⟩⟩ ⟨7⟩ (String.mk ['1', '2', 'y'])
    'x' ['y', 'z'] rfl (by decide) (by decide) (by decide)
  exact ⟨h.1, h.2.1, h.2.2⟩

/-! ### Digit-rendering and digit-parsing lemmas -/

/-- A digit value below 10 renders to a digit character. -/
theorem digitChar_isDigit {d : ℕ} (h : d < 10) : (digitChar d).isDigit = true := by
  interval_cases d <;> decide

/-- Reading a rendered digit character back gives the digit value. -/
theorem digitChar_toNat {d : ℕ} (h : d < 10) : (digitChar d).toNat - 48 = d := by
  interval_cases d <;> decide

/-- The empty list has no digit head. -/
theorem noDigitHead_nil : noDigitHead [] := by
  intro x hx
  simp at hx

/-- A list headed by a non-digit has no digit head. -/
theorem noDigitHead_cons {c : Char} (l : List Char) (h : c.isDigit = false) :
    noDigitHead (c :: l) := by
  intro x hx
  rw [List.head?_cons, Option.some_inj] at hx
  rw [← hx]
  exact h

/-- Greedy digit consumption stops at a non-digit head. -/
theorem takeDigits_stop (l : List Char) (acc : ℕ) (h : noDigitHead l) :
    takeDigits l acc = (acc, l) := by
  cases l with
  | nil => rfl
  | cons c cs =>
    have hc : c.isDigit = false := h c rfl
    simp [takeDigits, hc]

/-- Consuming the rendered digits of `n` shifts the accumulator by the digit
count and adds `n`. -/
theorem takeDigits_append : ∀ (fuel n acc : ℕ) (rest : List Char), n < 10 ^ fuel →
    takeDigits (natCharsAux fuel n ++ rest) acc =
      takeDigits rest (acc * 10 ^ (natCharsAux fuel n).length + n)
  | 0, n, acc, rest, h => by
    interval_cases n
    simp [natCharsAux]
  | fuel + 1, n, acc, rest, h => by
    by_cases h0 : n = 0
    · subst h0
      simp [natCharsAux]
    · have hdiv : n / 10 < 10 ^ fuel := by
        rw [Nat.div_lt_iff_lt_mul (by norm_num)]
        calc n < 10 ^ (fuel + 1) := h
          _ = 10 ^ fuel * 10 := by rw [pow_succ]
      have hd10 : n % 10 < 10 := Nat.mod_lt _ (by norm_num)
      have hlen : (natCharsAux (fuel + 1) n).length =
          (natCharsAux fuel (n / 10)).length + 1 := by
        rw [natCharsAux, if_neg h0]
        simp
      rw [natCharsAux, if_neg h0, List.append_assoc,
        takeDigits_append fuel (n / 10) acc ([digitChar (n % 10)] ++ rest) hdiv,
        List.singleton_append]
      simp only [takeDigits, digitChar_isDigit hd10, if_true]
      rw [digitChar_toNat hd10]
      congr 1
      have hdm : 10 * (n / 10) + n % 10 = n := by omega
      have hlen2 : (natCharsAux fuel (n / 10) ++ [digitChar (n % 10)]).length =
          (natCharsAux fuel (n / 10)).length + 1 := by simp
      rw [hlen2]
      calc 10 * (acc * 10 ^ (natCharsAux fuel (n / 10)).length + n / 10) + n % 10
          = acc * (10 ^ (natCharsAux fuel (n / 10)).length * 10) +
              (10 * (n / 10) + n % 10) := by ring
        _ = acc * 10 ^ ((natCharsAux fuel (n / 10)).length + 1) + n := by
              rw [hdm, pow_succ]

/-- Every natural number is below `10 ^ (n + 1)`. -/
theorem nat_lt_pow10 (n : ℕ) : n < 10 ^ (n + 1) :=
  lt_of_lt_of_le (Nat.lt_pow_self (by norm_num) n)
    (Nat.pow_le_pow_right (by norm_num) (Nat.le_succ n))

/-- Consuming the decimal rendering of `n` from a fresh accumulator yields
exactly `n` and leaves the (digit-free-headed) remainder. -/
theorem takeDigits_natChars (n : ℕ) (rest : List Char) (h : noDigitHead rest) :
    takeDigits (natChars n ++ rest) 0 = (n, rest) := by
  by_cases h0 : n = 0
  · subst h0
    have hstep : takeDigits ('0' :: rest) 0 = takeDigits rest 0 := by
      have hd : ('0').isDigit = true := by decide
      have hv : 10 * 0 + (('0').toNat - 48) = 0 := by decide
      simp only [takeDigits, hd, if_true, hv]
    rw [natChars, if_pos rfl, List.singleton_append, hstep,
      takeDigits_stop rest 0 h]
  · rw [natChars, if_neg h0,
      takeDigits_append (n + 1) n 0 rest (nat_lt_pow10 n),
      takeDigits_stop rest _ h]
    simp

/-- Every character of a digit rendering is a digit. -/
theorem natCharsAux_mem_digit : ∀ (fuel n : ℕ), ∀ c ∈ natCharsAux fuel n,
    c.isDigit = true
  | 0, n => by simp [natCharsAux]
  | fuel + 1, n => by
    by_cases h0 : n = 0
    · simp [natCharsAux, h0]
    · intro c hc
      rw [natCharsAux, if_neg h0] at hc
      rcases List.mem_append.mp hc with hmem | hmem
      · exact natCharsAux_mem_digit fuel (n / 10) c hmem
      · rw [List.mem_singleton] at hmem
        subst hmem
        exact digitChar_isDigit (Nat.mod_lt _ (by norm_num))

/-- Every character of `natChars n` is a digit. -/
theorem natChars_mem_digit (n : ℕ) : ∀ c ∈ natChars n, c.isDigit = true := by
  by_cases h0 : n = 0
  · subst h0
    intro c hc
    rw [natChars, if_pos rfl, List.mem_singleton] at hc
    subst hc
    decide
  · rw [natChars, if_neg h0]
    exact natCharsAux_mem_digit (n + 1) n

/-- A decimal rendering is never empty. -/
theorem natChars_ne_nil (n : ℕ) : natChars n ≠ [] := by
  by_cases h0 : n = 0
  · subst h0
    simp [natChars]
  · rw [natChars, if_neg h0, natCharsAux, if_neg h0]
    simp

/-- `\d+` parses a decimal rendering followed by a non-digit. -/
theorem parseNatPart_natChars (n : ℕ) (rest : List Char) (h : noDigitHead rest) :
    parseNatPart (natChars n ++ rest) = some (n, rest) := by
  cases hnc : natChars n with
  | nil => exact absurd hnc (natChars_ne_nil n)
  | cons c cs =>
    have hcd : c.isDigit = true :=
      natChars_mem_digit n c (by rw [hnc]; exact List.mem_cons_self c cs)
    have hrun : takeDigits (c :: (cs ++ rest)) 0 = (n, rest) := by
      rw [← List.cons_append, ← hnc]
      exact takeDigits_natChars n rest h
    rw [List.cons_append]
    simp [parseNatPart, hcd, hrun]

/-- Leading zeros keep a fresh accumulator at zero. -/
theorem takeDigits_zeros : ∀ (k : ℕ) (l : List Char),
    takeDigits (List.replicate k '0' ++ l) 0 = takeDigits l 0
  | 0, l => rfl
  | k + 1, l => by
    have hd : ('0').isDigit = true := by decide
    have hv : 10 * 0 + (('0').toNat - 48) = 0 := by decide
    rw [List.replicate_succ, List.cons_append]
    simp only [takeDigits, hd, if_true, hv]
    exact takeDigits_zeros k l

/-- `\d+` parses a zero-padded decimal rendering to the same value. -/
theorem parseNatPart_pad (k n : ℕ) (rest : List Char) (h : noDigitHead rest) :
    parseNatPart (List.replicate k '0' ++ (natChars n ++ rest)) = some (n, rest) := by
  cases k with
  | zero => simpa using parseNatPart_natChars n rest h
  | succ k =>
    have hd : ('0').isDigit = true := by decide
    have hzeros : takeDigits ('0' :: (List.replicate k '0' ++ (natChars n ++ rest))) 0 =
        (n, rest) := by
      have h1 := takeDigits_zeros (k + 1) (natChars n ++ rest)
      rw [List.replicate_succ, List.cons_append] at h1
      rw [h1, takeDigits_natChars n rest h]
    rw [List.replicate_succ, List.cons_append]
    simp [parseNatPart, hd, hzeros]

/-! ### Separator-skipping lemmas -/

/-- `[\s,]*` consumes a comma. -/
theorem skipSep_comma (l : List Char) : skipSep (',' :: l) = skipSep l := by
  simp [skipSep]

/-- `[\s,]*` consumes padding spaces. -/
theorem skipSep_spaces : ∀ (k : ℕ) (l : List Char),
    skipSep (List.replicate k ' ' ++ l) = skipSep l
  | 0, l => rfl
  | k + 1, l => by
    rw [List.replicate_succ, List.cons_append]
    have hstep : skipSep (' ' :: (List.replicate k ' ' ++ l)) =
        skipSep (List.replicate k ' ' ++ l) := by
      simp [skipSep]
    rw [hstep, skipSep_spaces k l]

/-- `[\s,]*` stops at a digit. -/
theorem skipSep_stop_digit (c : Char) (cs : List Char) (h : c.isDigit = true) :
    skipSep (c :: cs) = c :: cs := by
  have hcond : ¬ (c = ',' ∨ c.isWhitespace = true) := by
    rintro (rfl | hw)
    · exact absurd h (by decide)
    · rw [Char.isWhitespace] at hw
      simp only [Bool.or_eq_true, decide_eq_true_eq] at hw
      rcases hw with ((rfl | rfl) | rfl) | rfl <;> exact absurd h (by decide)
  simp only [skipSep]
  rw [if_neg hcond]

/-- `[\s,]*` stops at the head of a decimal rendering. -/
theorem skipSep_stop_natChars (n : ℕ) (l : List Char) :
    skipSep (natChars n ++ l) = natChars n ++ l := by
  cases hnc : natChars n with
  | nil => exact absurd hnc (natChars_ne_nil n)
  | cons c cs =>
    have hcd : c.isDigit = true :=
      natChars_mem_digit n c (by rw [hnc]; exact List.mem_cons_self c cs)
    rw [List.cons_append, skipSep_stop_digit c (cs ++ l) hcd]

/-! ### Matching the formatted string's groups -/

/-- `([-+]?)` consumes an explicit sign character. -/
theorem matchSign_sign (c : Char) (hc : c = '+' ∨ c = '-') (l : List Char) :
    matchSign (c :: l) = (some c, l) := by
  simp [matchSign, hc]

/-- A tagged group (`(\d+)y[\s,]*` or `(\d+)d[\s,]*`) consumes a decimal
rendering, its tag, the comma, and the next field's space padding. -/
theorem matchTagged_fmt (tag : Char) (htag : tag.isDigit = false)
    (n a m : ℕ) (l : List Char) :
    matchTagged tag
        (natChars n ++ tag :: ',' :: (List.replicate a ' ' ++ (natChars m ++ l))) =
      (some n, natChars m ++ l) := by
  have hrest : noDigitHead
      (tag :: ',' :: (List.replicate a ' ' ++ (natChars m ++ l))) :=
    noDigitHead_cons _ htag
  have h1 := parseNatPart_natChars n
    (tag :: ',' :: (List.replicate a ' ' ++ (natChars m ++ l))) hrest
  simp only [matchTagged, h1]
  rw [if_pos trivial, skipSep_comma, skipSep_spaces, skipSep_stop_natChars]

/-- The optional seconds group consumes `":" ++ zero-pad ++ digits ++ "." ++
one fractional digit` and captures integer part, fraction value and fraction
length. -/
theorem matchSeconds_fmt (e2 sIn fn : ℕ) (hfn : fn < 10) :
    matchSeconds
        (':' :: (List.replicate e2 '0' ++ (natChars sIn ++ '.' :: [digitChar fn]))) =
      (some ⟨sIn, fn, 1⟩, []) := by
  have hdot : noDigitHead ('.' :: [digitChar fn]) :=
    noDigitHead_cons _ (by decide)
  have h1 := parseNatPart_pad e2 sIn ('.' :: [digitChar fn]) hdot
  have h2 : parseFracPart [digitChar fn] = some ((fn, 1), []) := by
    have hd := digitChar_isDigit hfn
    simp [parseFracPart, takeDigitsCnt, hd, digitChar_toNat hfn]
  simp only [matchSeconds, h1, h2]
  rw [if_pos trivial, if_pos trivial]

/-- The hours-minutes-seconds group consumes the tail of the formatted
string entirely. -/
theorem matchHMS_fmt (hn c2 mn e2 sIn fn : ℕ) (hfn : fn < 10) :
    matchHMS
        (natChars hn ++ ':' :: (List.replicate c2 '0' ++ (natChars mn ++
          ':' :: (List.replicate e2 '0' ++ (natChars sIn ++ '.' :: [digitChar fn]))))) =
      (some (hn, mn, some ⟨sIn, fn, 1⟩), []) := by
  have h1 := parseNatPart_natChars hn
    (':' :: (List.replicate c2 '0' ++ (natChars mn ++
      ':' :: (List.replicate e2 '0' ++ (natChars sIn ++ '.' :: [digitChar fn])))))
    (noDigitHead_cons _ (by decide))
  have h2 := parseNatPart_pad c2 mn
    (':' :: (List.replicate e2 '0' ++ (natChars sIn ++ '.' :: [digitChar fn])))
    (noDigitHead_cons _ (by decide))
  have h3 := matchSeconds_fmt e2 sIn fn hfn
  simp only [matchHMS, h1, h2, h3]
  rw [if_pos trivial]

/-- `str2time`'s regex run against exactly the character-list shape that
`time2str` emits captures every group. -/
theorem matchTime_fmt (sgn : Char) (hsgn : sgn = '+' ∨ sgn = '-')
    (yn a dn b2 hn c2 mn e2 sIn fn : ℕ) (hfn : fn < 10) :
    matchTime
        (sgn :: (natChars yn ++ 'y' :: ',' :: (List.replicate a ' ' ++
          (natChars dn ++ 'd' :: ',' :: (List.replicate b2 ' ' ++
            (natChars hn ++ ':' :: (List.replicate c2 '0' ++ (natChars mn ++
              ':' :: (List.replicate e2 '0' ++
                (natChars sIn ++ '.' :: [digitChar fn])))))))))) =
      ⟨some sgn, some yn, some dn, some (hn, mn, some ⟨sIn, fn, 1⟩)⟩ := by
  have h1 := matchSign_sign sgn hsgn
    (natChars yn ++ 'y' :: ',' :: (List.replicate a ' ' ++
      (natChars dn ++ 'd' :: ',' :: (List.replicate b2 ' ' ++
        (natChars hn ++ ':' :: (List.replicate c2 '0' ++ (natChars mn ++
          ':' :: (List.replicate e2 '0' ++
            (natChars sIn ++ '.' :: [digitChar fn])))))))))
  have h2 := matchTagged_fmt 'y' (by decide) yn a dn
    ('d' :: ',' :: (List.replicate b2 ' ' ++
      (natChars hn ++ ':' :: (List.replicate c2 '0' ++ (natChars mn ++
        ':' :: (List.replicate e2 '0' ++
          (natChars sIn ++ '.' :: [digitChar fn])))))))
  have h3 := matchTagged_fmt 'd' (by decide) dn b2 hn
    (':' :: (List.replicate c2 '0' ++ (natChars mn ++
      ':' :: (List.replicate e2 '0' ++ (natChars sIn ++ '.' :: [digitChar fn])))))
  have h4 := matchHMS_fmt hn c2 mn e2 sIn fn hfn
  simp only [matchTime, h1, h2, h3, h4]

/-! ### Rounding and float-divmod lemmas -/

/-- Rounding ties-to-even keeps non-negative inputs non-negative. -/
theorem roundTiesEven_nonneg {x : ℝ} (hx : 0 ≤ x) : 0 ≤ roundTiesEven x := by
  have h0 : (0 : ℤ) ≤ ⌊x⌋ := Int.floor_nonneg.mpr hx
  unfold roundTiesEven
  split_ifs <;> omega

/-- Rounding ties-to-even errs by at most a half. -/
theorem roundTiesEven_err (x : ℝ) : |((roundTiesEven x : ℤ) : ℝ) - x| ≤ 1 / 2 := by
  have h1 := Int.floor_le x
  have h2 := Int.lt_floor_add_one x
  unfold roundTiesEven
  split_ifs with ha hb hc <;>
    (rw [abs_le]; constructor <;> push_cast <;> linarith)

/-- Python's float `divmod` against a positive modulus: the quotient is a
non-negative integer and the remainder lies in `[0, modulus)`. -/
theorem divmod_bounds (x P : ℝ) (hx : 0 ≤ x) (hP : 0 < P) :
    0 ≤ ⌊x / P⌋ ∧ 0 ≤ x - ⌊x / P⌋ * P ∧ x - ⌊x / P⌋ * P < P := by
  refine ⟨Int.floor_nonneg.mpr (div_nonneg hx hP.le), ?_, ?_⟩
  · have h := Int.floor_le (x / P)
    have h2 : (⌊x / P⌋ : ℝ) * P ≤ x / P * P := mul_le_mul_of_nonneg_right h hP.le
    rw [div_mul_cancel₀ x hP.ne'] at h2
    linarith
  · have h := Int.lt_floor_add_one (x / P)
    have h2 : x / P * P < ((⌊x / P⌋ : ℝ) + 1) * P :=
      mul_lt_mul_of_pos_right h hP
    rw [div_mul_cancel₀ x hP.ne'] at h2
    nlinarith

/-- The character list `time2str` builds, rewritten into the canonical
right-nested shape that the regex-matching lemmas consume, valid whenever the
`divmod` quotients are non-negative, the year count is below `10^5`, and the
final seconds remainder is non-negative. -/
theorem fmtList_canonical (sgn : Char) (Y D H Mn : ℤ) (r4 : ℝ)
    (hY0 : 0 ≤ Y) (hYlt : Y < 100000) (hD0 : 0 ≤ D) (hH0 : 0 ≤ H)
    (hM0 : 0 ≤ Mn) (hr4 : 0 ≤ r4) :
    sgn :: fmt5gZ Y ++ 'y' :: ',' :: padLeft ' ' 4 (intChars D) ++
        'd' :: ',' :: padLeft ' ' 3 (intChars H) ++
        ':' :: padLeft '0' 2 (intChars Mn) ++ ':' :: fmtSecondsReal r4 =
      sgn :: (natChars Y.toNat ++ 'y' :: ',' ::
        (List.replicate (4 - (natChars D.toNat).length) ' ' ++
          (natChars D.toNat ++ 'd' :: ',' ::
            (List.replicate (3 - (natChars H.toNat).length) ' ' ++
              (natChars H.toNat ++ ':' ::
                (List.replicate (2 - (natChars Mn.toNat).length) '0' ++
                  (natChars Mn.toNat ++ ':' ::
                    (List.replicate
                        (4 - (natChars ((roundTiesEven (10 * r4)).toNat / 10) ++
                          '.' :: [digitChar ((roundTiesEven (10 * r4)).toNat % 10)]).length)
                        '0' ++
                      (natChars ((roundTiesEven (10 * r4)).toNat / 10) ++
                        '.' :: [digitChar ((roundTiesEven (10 * r4)).toNat % 10)]))))))))) := by
  have hst0 : 0 ≤ roundTiesEven (10 * r4) := roundTiesEven_nonneg (by positivity)
  have hYfmt : fmt5gZ Y = natChars Y.toNat := by
    rw [fmt5gZ, if_neg (not_lt.mpr hY0), fmt5g,
      if_pos (by omega : Y.toNat < 100000)]
  have hDfmt : intChars D = natChars D.toNat := by
    rw [intChars, if_neg (not_lt.mpr hD0)]
  have hHfmt : intChars H = natChars H.toNat := by
    rw [intChars, if_neg (not_lt.mpr hH0)]
  have hMfmt : intChars Mn = natChars Mn.toNat := by
    rw [intChars, if_neg (not_lt.mpr hM0)]
  have hSfmt : fmtSecondsReal r4 =
      List.replicate
          (4 - (natChars ((roundTiesEven (10 * r4)).toNat / 10) ++
            '.' :: [digitChar ((roundTiesEven (10 * r4)).toNat % 10)]).length) '0' ++
        (natChars ((roundTiesEven (10 * r4)).toNat / 10) ++
          '.' :: [digitChar ((roundTiesEven (10 * r4)).toNat % 10)]) := by
    simp only [fmtSecondsReal]
    rw [if_neg (not_lt.mpr hst0), padLeft, secondsCore]
  rw [hYfmt, hDfmt, hHfmt, hMfmt, hSfmt, padLeft, padLeft, padLeft]
  simp [List.append_assoc]

/-- `str2time` applied to the canonical formatted shape: every group is
captured and converted, giving the exact recombined duration. -/
theorem str2time_fmt (b : CelestialBody) (o : Orbit) (horb : b.orbit = some o)
    (sgn : Char) (hsgn : sgn = '+' ∨ sgn = '-')
    (yn a dn b2 hn c2 mn e2 sIn fn : ℕ) (hfn : fn < 10) :
    b.str2time (String.mk
        (sgn :: (natChars yn ++ 'y' :: ',' :: (List.replicate a ' ' ++
          (natChars dn ++ 'd' :: ',' :: (List.replicate b2 ' ' ++
            (natChars hn ++ ':' :: (List.replicate c2 '0' ++ (natChars mn ++
              ':' :: (List.replicate e2 '0' ++
                (natChars sIn ++ '.' :: [digitChar fn]))))))))))) =
      .ok (if sgn = '-'
        then -(((sIn : ℝ) + (fn : ℝ) / 10 ^ 1) + (yn : ℝ) * o.period +
          (dn : ℝ) * b.rotational_period + (hn : ℝ) * 3600 + (mn : ℝ) * 60)
        else ((sIn : ℝ) + (fn : ℝ) / 10 ^ 1) + (yn : ℝ) * o.period +
          (dn : ℝ) * b.rotational_period + (hn : ℝ) * 3600 + (mn : ℝ) * 60) := by
  have hm := matchTime_fmt sgn hsgn yn a dn b2 hn c2 mn e2 sIn fn hfn
  simp only [CelestialBody.str2time, horb, hm, Option.getD_some,
    Option.some.injEq]

/-- `time2str` with an orbit and non-zero periods succeeds, emitting the
format string built from the `divmod` chain. -/
theorem time2str_ok (b : CelestialBody) (o : Orbit) (t : ℝ)
    (horb : b.orbit = some o) (hP : o.period ≠ 0) (hR : b.rotational_period ≠ 0)
    (Y D H M : ℤ) (r1 r2 r3 r4 : ℝ)
    (hY : Y = ⌊|t| / o.period⌋) (hr1 : r1 = |t| - Y * o.period)
    (hD : D = ⌊r1 / b.rotational_period⌋) (hr2 : r2 = r1 - D * b.rotational_period)
    (hH : H = ⌊r2 / 3600⌋) (hr3 : r3 = r2 - H * 3600)
    (hM : M = ⌊r3 / 60⌋) (hr4 : r4 = r3 - M * 60) :
    b.time2str t = .ok (String.mk
      ((if t < 0 then '-' else '+') :: fmt5gZ Y ++ 'y' :: ',' ::
        padLeft ' ' 4 (intChars D) ++ 'd' :: ',' ::
        padLeft ' ' 3 (intChars H) ++ ':' :: padLeft '0' 2 (intChars M) ++
        ':' :: fmtSecondsReal r4)) := by
  subst hY hr1 hD hr2 hH hr3 hM hr4
  simp only [CelestialBody.time2str, horb]
  rw [if_neg hP, if_neg hR]

/-- The recombined parsed value differs from `|t|` only by the seconds
rounding, hence by at most `1/20`, and is non-negative. -/
theorem roundtrip_value_close (P R t : ℝ) (hP : 0 < P) (hR : 0 < R)
    (Y D H M ST : ℤ) (r1 r2 r3 r4 : ℝ)
    (hr1 : r1 = |t| - Y * P) (hr2 : r2 = r1 - D * R) (hr3 : r3 = r2 - H * 3600)
    (hr4 : r4 = r3 - M * 60) (hST : ST = roundTiesEven (10 * r4))
    (hY0 : 0 ≤ Y) (hD0 : 0 ≤ D) (hH0 : 0 ≤ H) (hM0 : 0 ≤ M) (hr40 : 0 ≤ r4) :
    abs ((((ST.toNat / 10 : ℕ) : ℝ) + ((ST.toNat % 10 : ℕ) : ℝ) / 10 ^ 1) +
        ((Y.toNat : ℕ) : ℝ) * P + ((D.toNat : ℕ) : ℝ) * R +
        ((H.toNat : ℕ) : ℝ) * 3600 + ((M.toNat : ℕ) : ℝ) * 60 - |t|) ≤ 1 / 20 ∧
    0 ≤ (((ST.toNat / 10 : ℕ) : ℝ) + ((ST.toNat % 10 : ℕ) : ℝ) / 10 ^ 1) +
        ((Y.toNat : ℕ) : ℝ) * P + ((D.toNat : ℕ) : ℝ) * R +
        ((H.toNat : ℕ) : ℝ) * 3600 + ((M.toNat : ℕ) : ℝ) * 60 := by
  have hST0 : 0 ≤ ST := by
    rw [hST]
    exact roundTiesEven_nonneg (by positivity)
  have hcastY : ((Y.toNat : ℕ) : ℝ) = (Y : ℝ) := by
    exact_mod_cast congrArg (fun z : ℤ => (z : ℝ)) (Int.toNat_of_nonneg hY0)
  have hcastD : ((D.toNat : ℕ) : ℝ) = (D : ℝ) := by
    exact_mod_cast congrArg (fun z : ℤ => (z : ℝ)) (Int.toNat_of_nonneg hD0)
  have hcastH : ((H.toNat : ℕ) : ℝ) = (H : ℝ) := by
    exact_mod_cast congrArg (fun z : ℤ => (z : ℝ)) (Int.toNat_of_nonneg hH0)
  have hcastM : ((M.toNat : ℕ) : ℝ) = (M : ℝ) := by
    exact_mod_cast congrArg (fun z : ℤ => (z : ℝ)) (Int.toNat_of_nonneg hM0)
  have hcastST : ((ST.toNat : ℕ) : ℝ) = (ST : ℝ) := by
    exact_mod_cast congrArg (fun z : ℤ => (z : ℝ)) (Int.toNat_of_nonneg hST0)
  have hsndm : ((ST.toNat / 10 : ℕ) : ℝ) + ((ST.toNat % 10 : ℕ) : ℝ) / 10 ^ 1 =
      (ST : ℝ) / 10 := by
    have h1 : 10 * (ST.toNat / 10) + ST.toNat % 10 = ST.toNat :=
      Nat.div_add_mod _ 10
    have h2 : (10 : ℝ) * ((ST.toNat / 10 : ℕ) : ℝ) + ((ST.toNat % 10 : ℕ) : ℝ) =
        ((ST.toNat : ℕ) : ℝ) := by exact_mod_cast h1
    rw [hcastST] at h2
    norm_num
    linarith
  have herr : |((ST : ℤ) : ℝ) - 10 * r4| ≤ 1 / 2 := by
    rw [hST]
    exact roundTiesEven_err (10 * r4)
  have htele : |t| = Y * P + D * R + H * 3600 + M * 60 + r4 := by
    linarith [hr1, hr2, hr3, hr4]
  constructor
  · rw [hsndm, hcastY, hcastD, hcastH, hcastM, htele]
    rw [show (ST : ℝ) / 10 + (Y : ℝ) * P + (D : ℝ) * R + (H : ℝ) * 3600 +
        (M : ℝ) * 60 - ((Y : ℝ) * P + (D : ℝ) * R + (H : ℝ) * 3600 +
        (M : ℝ) * 60 + r4) = ((ST : ℝ) - 10 * r4) / 10 from by ring]
    rw [abs_div, abs_of_pos (by norm_num : (0 : ℝ) < 10),
      div_le_iff₀ (by norm_num : (0 : ℝ) < 10)]
    linarith [herr]
  · have t1 : (0 : ℝ) ≤ ((ST.toNat / 10 : ℕ) : ℝ) := Nat.cast_nonneg _
    have t2 : (0 : ℝ) ≤ ((ST.toNat % 10 : ℕ) : ℝ) / 10 ^ 1 := by positivity
    have t3 : (0 : ℝ) ≤ ((Y.toNat : ℕ) : ℝ) * P :=
      mul_nonneg (Nat.cast_nonneg _) hP.le
    have t4 : (0 : ℝ) ≤ ((D.toNat : ℕ) : ℝ) * R :=
      mul_nonneg (Nat.cast_nonneg _) hR.le
    have t5 : (0 : ℝ) ≤ ((H.toNat : ℕ) : ℝ) * 3600 :=
      mul_nonneg (Nat.cast_nonneg _) (by norm_num)
    have t6 : (0 : ℝ) ≤ ((M.toNat : ℕ) : ℝ) * 60 :=
      mul_nonneg (Nat.cast_nonneg _) (by norm_num)
    linarith

/-- C7 (amended): for a body with an orbit, positive orbital and rotational
periods, and a duration whose whole number of years stays below `10^5` (the
`%.5g` plain-digit regime), `str2time (time2str t)` succeeds and recovers `t`
within 0.05 seconds absolute error — the seconds field is rounded to one
decimal — with the sign preserved. -/
theorem time_roundtrip (b : CelestialBody) (o : Orbit) (t : ℝ)
    (horb : b.orbit = some o) (hP : 0 < o.period) (hR : 0 < b.rotational_period)
    (hylt : ⌊|t| / o.period⌋ < 100000) :
    exceptIsOk ((b.time2str t).bind b.str2time) = true ∧
    |exceptValD 0 ((b.time2str t).bind b.str2time) - t| ≤ 1 / 20 ∧
    (0 ≤ t → 0 ≤ exceptValD 0 ((b.time2str t).bind b.str2time)) ∧
    (t < 0 → exceptValD 0 ((b.time2str t).bind b.str2time) ≤ 0) := by
  set Y : ℤ := ⌊|t| / o.period⌋ with hYdef
  set r1 : ℝ := |t| - Y * o.period with hr1def
  set D : ℤ := ⌊r1 / b.rotational_period⌋ with hDdef
  set r2 : ℝ := r1 - D * b.rotational_period with hr2def
  set H : ℤ := ⌊r2 / 3600⌋ with hHdef
  set r3 : ℝ := r2 - H * 3600 with hr3def
  set M : ℤ := ⌊r3 / 60⌋ with hMdef
  set r4 : ℝ := r3 - M * 60 with hr4def
  set ST : ℤ := roundTiesEven (10 * r4) with hSTdef
  have hb1 := divmod_bounds |t| o.period (abs_nonneg t) hP
  rw [← hYdef, ← hr1def] at hb1
  obtain ⟨hY0, hr10, hr1lt⟩ := hb1
  have hb2 := divmod_bounds r1 b.rotational_period hr10 hR
  rw [← hDdef, ← hr2def] at hb2
  obtain ⟨hD0, hr20, hr2lt⟩ := hb2
  have hb3 := divmod_bounds r2 3600 hr20 (by norm_num)
  rw [← hHdef, ← hr3def] at hb3
  obtain ⟨hH0, hr30, hr3lt⟩ := hb3
  have hb4 := divmod_bounds r3 60 hr30 (by norm_num)
  rw [← hMdef, ← hr4def] at hb4
  obtain ⟨hM0, hr40, hr4lt⟩ := hb4
  have hstr := time2str_ok b o t horb hP.ne' hR.ne' Y D H M r1 r2 r3 r4
    hYdef hr1def hDdef hr2def hHdef hr3def hMdef hr4def
  rw [fmtList_canonical (if t < 0 then '-' else '+') Y D H M r4
    hY0 hylt hD0 hH0 hM0 hr40, ← hSTdef] at hstr
  have hsgn : (if t < 0 then '-' else '+') = '+' ∨
      (if t < 0 then '-' else '+') = '-' := by
    split_ifs <;> simp
  have hparse := str2time_fmt b o horb (if t < 0 then '-' else '+') hsgn
    Y.toNat (4 - (natChars D.toNat).length) D.toNat
    (3 - (natChars H.toNat).length) H.toNat (2 - (natChars M.toNat).length)
    M.toNat
    (4 - (natChars (ST.toNat / 10) ++ '.' :: [digitChar (ST.toNat % 10)]).length)
    (ST.toNat / 10) (ST.toNat % 10) (Nat.mod_lt _ (by norm_num))
  have hcomp : (b.time2str t).bind b.str2time =
      .ok (if (if t < 0 then '-' else '+') = '-'
        then -((((ST.toNat / 10 : ℕ) : ℝ) + ((ST.toNat % 10 : ℕ) : ℝ) / 10 ^ 1) +
          ((Y.toNat : ℕ) : ℝ) * o.period +
          ((D.toNat : ℕ) : ℝ) * b.rotational_period +
          ((H.toNat : ℕ) : ℝ) * 3600 + ((M.toNat : ℕ) : ℝ) * 60)
        else (((ST.toNat / 10 : ℕ) : ℝ) + ((ST.toNat % 10 : ℕ) : ℝ) / 10 ^ 1) +
          ((Y.toNat : ℕ) : ℝ) * o.period +
          ((D.toNat : ℕ) : ℝ) * b.rotational_period +
          ((H.toNat : ℕ) : ℝ) * 3600 + ((M.toNat : ℕ) : ℝ) * 60) := by
    rw [hstr]
    simp only [Except.bind]
    exact hparse
  have hval := roundtrip_value_close o.period b.rotational_period t hP hR
    Y D H M ST r1 r2 r3 r4 hr1def hr2def hr3def hr4def hSTdef
    hY0 hD0 hH0 hM0 hr40
  rw [hcomp]
  rcases le_or_lt 0 t with ht0 | ht0
  · rw [if_neg (not_lt.mpr ht0)]
    rw [if_neg (by decide : ¬ ('+' : Char) = '-')]
    refine ⟨rfl, ?_, fun _ => ?_, fun hneg => absurd hneg (not_lt.mpr ht0)⟩
    · have habs : |t| = t := abs_of_nonneg ht0
      have h1 := hval.1
      rw [habs] at h1
      simpa [exceptValD] using h1
    · simpa [exceptValD] using hval.2
  · rw [if_pos ht0, if_pos rfl]
    refine ⟨rfl, ?_, fun hpos => absurd ht0 (not_lt.mpr hpos), fun _ => ?_⟩
    · have habs : |t| = -t := abs_of_neg ht0
      have h1 := hval.1
      rw [habs] at h1
      have h2 : |-((((ST.toNat / 10 : ℕ) : ℝ) + ((ST.toNat % 10 : ℕ) : ℝ) / 10 ^ 1) +
          ((Y.toNat : ℕ) : ℝ) * o.period +
          ((D.toNat : ℕ) : ℝ) * b.rotational_period +
          ((H.toNat : ℕ) : ℝ) * 3600 + ((M.toNat : ℕ) : ℝ) * 60) - t| =
          abs ((((ST.toNat / 10 : ℕ) : ℝ) + ((ST.toNat % 10 : ℕ) : ℝ) / 10 ^ 1) +
          ((Y.toNat : ℕ) : ℝ) * o.period +
          ((D.toNat : ℕ) : ℝ) * b.rotational_period +
          ((H.toNat : ℕ) : ℝ) * 3600 + ((M.toNat : ℕ) : ℝ) * 60 - -t) := by
        rw [← abs_neg]
        ring_nf
      simp only [exceptValD]
      rw [h2]
      exact h1
    · have h2 := hval.2
      simp only [exceptValD]
      linarith

/-- C7 counterexample: for orbital period `5/4` and rotational period `1`,
the claimed duration `2.5·P + 3·R + 3661.5 = 3667.625` formats with seconds
field `00.1` (the remainder `0.125` rounds to one decimal) and parses back to
`3667.6`; the error `0.025` exceeds the claimed `1e-6` relative bound. -/
theorem time_roundtrip_counterexample :
    (CelestialBody.time2str ⟨0, 0, 1, some ⟨5 / 4⟩⟩
        (2.5 * (5 / 4) + 3 * 1 + 3661.5)).bind
      (CelestialBody.str2time ⟨0, 0, 1, some ⟨5 / 4⟩⟩) = .ok (18338 / 5) ∧
    ¬ |(18338 / 5 : ℝ) - (2.5 * (5 / 4) + 3 * 1 + 3661.5)| ≤
        1 / 10 ^ 6 * |(2.5 * (5 / 4) + 3 * 1 + 3661.5 : ℝ)| := by
  have habs : |(2.5 * (5 / 4) + 3 * 1 + 3661.5 : ℝ)| = 3667.625 := by
    rw [abs_of_nonneg] <;> norm_num
  have hY : (2934 : ℤ) = ⌊|(2.5 * (5 / 4) + 3 * 1 + 3661.5 : ℝ)| / (5 / 4 : ℝ)⌋ := by
    rw [habs, show (3667.625 : ℝ) / (5 / 4) = 2934.1 from by norm_num]
    exact (floorEq (by norm_num) (by norm_num)).symm
  have hr1 : (0.125 : ℝ) =
      |(2.5 * (5 / 4) + 3 * 1 + 3661.5 : ℝ)| - ((2934 : ℤ) : ℝ) * (5 / 4) := by
    rw [habs]
    norm_num
  have hD : (0 : ℤ) = ⌊(0.125 : ℝ) / (1 : ℝ)⌋ := by
    rw [show (0.125 : ℝ) / 1 = 0.125 from by norm_num]
    exact (floorEq (by norm_num) (by norm_num)).symm
  have hr2 : (0.125 : ℝ) = (0.125 : ℝ) - ((0 : ℤ) : ℝ) * 1 := by norm_num
  have hH : (0 : ℤ) = ⌊(0.125 : ℝ) / 3600⌋ := by
    exact (floorEq (by norm_num) (by norm_num)).symm
  have hr3 : (0.125 : ℝ) = (0.125 : ℝ) - ((0 : ℤ) : ℝ) * 3600 := by norm_num
  have hM : (0 : ℤ) = ⌊(0.125 : ℝ) / 60⌋ := by
    exact (floorEq (by norm_num) (by norm_num)).symm
  have hr4 : (0.125 : ℝ) = (0.125 : ℝ) - ((0 : ℤ) : ℝ) * 60 := by norm_num
  have hstr := time2str_ok ⟨0, 0, 1, some ⟨5 / 4⟩⟩ ⟨5 / 4⟩
    (2.5 * (5 / 4) + 3 * 1 + 3661.5) rfl (by norm_num) (by norm_num)
    2934 0 0 0 0.125 0.125 0.125 0.125 hY hr1 hD hr2 hH hr3 hM hr4
  have hsgnv : (if (2.5 * (5 / 4) + 3 * 1 + 3661.5 : ℝ) < 0 then '-' else '+') = '+' :=
    if_neg (by norm_num)
  rw [hsgnv, fmtList_canonical '+' 2934 0 0 0 0.125 (by norm_num) (by norm_num)
    (by norm_num) (by norm_num) (by norm_num) (by norm_num)] at hstr
  have hST : roundTiesEven (10 * (0.125 : ℝ)) = 1 := by
    have hf : ⌊(10 * (0.125 : ℝ))⌋ = 1 := floorEq (by norm_num) (by norm_num)
    unfold roundTiesEven
    rw [hf, if_pos (by push_cast; norm_num)]
  rw [hST] at hstr
  rw [show ((1 : ℤ).toNat / 10) = 0 from rfl, show ((1 : ℤ).toNat % 10) = 1 from rfl,
    show ((2934 : ℤ).toNat) = 2934 from rfl, show ((0 : ℤ).toNat) = 0 from rfl] at hstr
  have hparse := str2time_fmt ⟨0, 0, 1, some ⟨5 / 4⟩⟩ ⟨5 / 4⟩ rfl '+'
    (Or.inl rfl) 2934 (4 - (natChars 0).length) 0 (3 - (natChars 0).length) 0
    (2 - (natChars 0).length) 0
    (4 - (natChars 0 ++ '.' :: [digitChar 1]).length) 0 1 (by norm_num)
  constructor
  · rw [hstr]
    simp only [Except.bind]
    rw [hparse, if_neg (by decide : ¬ ('+' : Char) = '-')]
    congr 1
    push_cast
    norm_num
  · rw [habs, show (18338 / 5 : ℝ) - (2.5 * (5 / 4) + 3 * 1 + 3661.5) = -0.025 from by
      norm_num]
    rw [abs_of_nonpos (by norm_num)]
    norm_num

/-- C7 witness (for the amended claim): orbital period 2, rotational period
1, at the claimed duration `2.5·P + 3·R + 3661.5`. -/
theorem time_roundtrip_witness :
    exceptIsOk ((CelestialBody.time2str ⟨0, 0, 1, some ⟨2⟩⟩
        (2.5 * 2 + 3 * 1 + 3661.5)).bind
      (CelestialBody.str2time ⟨0, 0, 1, some ⟨2⟩⟩)) = true ∧
    |exceptValD 0 ((CelestialBody.time2str ⟨0, 0, 1, some ⟨2⟩⟩
        (2.5 * 2 + 3 * 1 + 3661.5)).bind
      (CelestialBody.str2time ⟨0, 0, 1, some ⟨2⟩⟩)) -
        (2.5 * 2 + 3 * 1 + 3661.5)| ≤ 1 / 20 := by
  have h := time_roundtrip ⟨0, 0, 1, some ⟨2⟩⟩ ⟨2⟩ (2.5 * 2 + 3 * 1 + 3661.5)
    rfl (by norm_num) (by norm_num)
    (by
      have h1 : |(2.5 * 2 + 3 * 1 + 3661.5 : ℝ)| / (2 : ℝ) = 1834.75 := by
        rw [abs_of_nonneg (by norm_num)]
        norm_num
      have h2 : ⌊(1834.75 : ℝ)⌋ = 1834 := floorEq (by norm_num) (by norm_num)
      show ⌊|(2.5 * 2 + 3 * 1 + 3661.5 : ℝ)| / (2 : ℝ)⌋ < 100000
      rw [h1, h2]
      norm_num)
  exact ⟨h.1, h.2.1⟩

end Spyce
